import Mathlib

/-!
Verification of the annotation coordinate engine of the PDF-READER-APP
repository (src/components/PdfViewer.tsx and src/services/driveService.ts),
as a shallow embedding in Lean 4.

JavaScript numbers are modelled as rationals (`ℚ`) for geometry and as
integers (`ℤ`) for page numbers; optional fields of the `Annotation` record
(src/types.ts) are modelled with `Option`.  JavaScript truthiness of an
optional string field (`undefined` and `""` are falsy) is modelled by
`strTruthy`.
-/

namespace PdfReaderApp

/-- The `type` field of the `Annotation` record in src/types.ts:
`'highlight' | 'note' | 'ink'`. -/
inductive AnnKind
  | highlight
  | note
  | ink
deriving DecidableEq, Repr

/-- The `bbox: [number, number, number, number]` field (x, y, width, height),
stored at unit scale (PDF scale = 1). -/
structure BBox where
  x : ℚ
  y : ℚ
  w : ℚ
  h : ℚ
deriving DecidableEq, Repr

/-- The `Annotation` record of src/types.ts.  The fields `author`,
`createdAt` and `updatedAt` are never read by the viewer logic and are
omitted. -/
structure Annotation where
  id : Option String := none
  page : ℤ
  bbox : BBox
  text : Option String := none
  type : AnnKind
  points : List (ℚ × ℚ) := []
  color : Option String := none
  opacity : Option ℚ := none
  strokeWidth : Option ℚ := none
deriving DecidableEq, Repr

/-- JavaScript truthiness of an optional string: `undefined` and the empty
string are falsy, every other string is truthy. -/
def strTruthy : Option String → Bool
  | none => false
  | some s => decide (s ≠ "")

/-- `handleDeleteAnnotation` (PdfViewer.tsx lines 2154-2167): notes, ink and
records without a truthy `text` are removed by identifier only (and only when
`target.id` is itself truthy); otherwise (a highlight with text) every record
on the same page with the same text and the same kind is removed. -/
def handleDeleteAnnotation (target : Annotation) (prev : List Annotation) :
    List Annotation :=
  if target.type = AnnKind.ink ∨ target.type = AnnKind.note ∨
      strTruthy target.text = false then
    if strTruthy target.id then
      prev.filter (fun a => decide (a.id ≠ target.id))
    else prev
  else
    prev.filter (fun a =>
      decide (¬(a.page = target.page ∧ a.text = target.text ∧
        a.type = target.type)))

/-- A concrete note with text, living on page 1. -/
def noteA : Annotation :=
  { id := some "note-A", page := 1, bbox := ⟨10, 20, 0, 0⟩,
    text := some "same words", type := AnnKind.note }

/-- A second note on the same page with exactly the same text as `noteA`. -/
def noteB : Annotation :=
  { id := some "note-B", page := 1, bbox := ⟨40, 90, 0, 0⟩,
    text := some "same words", type := AnnKind.note }

/-- First fragment of a wrapped-line highlight on page 3. -/
def hlFrag1 : Annotation :=
  { id := some "hl-1", page := 3, bbox := ⟨5, 10, 50, 4⟩,
    text := some "wrapped line", type := AnnKind.highlight,
    color := some "#facc15", opacity := some (2/5) }

/-- Second fragment of the same wrapped-line highlight: same page, text and
kind as `hlFrag1`, different identifier and rectangle. -/
def hlFrag2 : Annotation :=
  { id := some "hl-2", page := 3, bbox := ⟨5, 15, 30, 4⟩,
    text := some "wrapped line", type := AnnKind.highlight,
    color := some "#facc15", opacity := some (2/5) }

/-- A concrete ink stroke on page 3 with a stable identifier. -/
def inkStroke : Annotation :=
  { id := some "ink-1", page := 3, bbox := ⟨0, 0, 0, 0⟩,
    text := none, type := AnnKind.ink,
    points := [(1, 1), (2, 3), (4, 5), (6, 6), (8, 9)],
    color := some "#22c55e", opacity := some (1/2), strokeWidth := some 20 }

/-- A client-space rectangle in screen pixels (DOMRect-like: left, top,
width, height). -/
structure ScreenRect where
  left : ℚ
  top : ℚ
  width : ℚ
  height : ℚ
deriving DecidableEq, Repr

/-- Normalization performed by `handleSelectionEnd` (PdfViewer.tsx lines
2388-2396): subtract the page element's screen origin and divide every
component by the live view scale (`scale`), producing unit-scale geometry. -/
def normalizeSelectionRect (r : ScreenRect) (pageLeft pageTop viewScale : ℚ) :
    BBox :=
  ⟨(r.left - pageLeft) / viewScale, (r.top - pageTop) / viewScale,
   r.width / viewScale, r.height / viewScale⟩

/-- On-screen placement of a stored bbox by the annotation overlay: inside
the transformed container the rectangle is placed at `bbox * renderScale`
(lines 1935-1938), and the container carries the single uniform CSS
transform `scale(currentScale / renderScale)` with origin `0 0`
(lines 1792 and 1815-1816). -/
def overlayScreenRect (bbox : BBox) (renderScale viewScale : ℚ) :
    ScreenRect :=
  let t := viewScale / renderScale
  ⟨bbox.x * renderScale * t, bbox.y * renderScale * t,
   bbox.w * renderScale * t, bbox.h * renderScale * t⟩

/-- State of one `PdfPage` component: the hook state feeding the render
effect (lines 1603-1705) plus the live view scale and a counter of raster
invocations (`pageProxy.render` calls). -/
structure PageState where
  pageProxy : Option ℕ
  renderScale : ℚ
  isVisible : Bool
  pageDimensions : Option (ℚ × ℚ)
  currentScale : ℚ
  rasterCount : ℕ
deriving DecidableEq, Repr

/-- The dependency array of the render effect (line 1705):
`[pageProxy, renderScale, isVisible, pageDimensions]` — deliberately not
`currentScale` (comment at line 1627). -/
def renderEffectDeps (st : PageState) :
    Option ℕ × ℚ × Bool × Option (ℚ × ℚ) :=
  (st.pageProxy, st.renderScale, st.isVisible, st.pageDimensions)

/-- Events reaching a mounted `PdfPage`: a view-scale (zoom) change, a
visibility change, or completion of the one-time page fetch (which also
fixes the page dimensions at render scale, lines 1620-1624). -/
inductive PageEvent
  | setScale (s : ℚ)
  | setVisible (b : Bool)
  | loadPage (p : ℕ) (dims : ℚ × ℚ)
deriving DecidableEq, Repr

/-- State update performed by each event. -/
def applyEvent : PageEvent → PageState → PageState
  | PageEvent.setScale s, st => { st with currentScale := s }
  | PageEvent.setVisible b, st => { st with isVisible := b }
  | PageEvent.loadPage p d, st =>
      { st with pageProxy := some p, pageDimensions := some d }

/-- One React commit: apply the state update, then run the render effect —
which re-executes exactly when its dependency array changed — and rasterize
when the guard of line 1629 (visible, dimensions and proxy present)
passes. -/
def pageStep (e : PageEvent) (st : PageState) : PageState :=
  let st2 := applyEvent e st
  if renderEffectDeps st2 ≠ renderEffectDeps st ∧ st2.isVisible = true ∧
      st2.pageProxy.isSome = true ∧ st2.pageDimensions.isSome = true then
    { st2 with rasterCount := st2.rasterCount + 1 }
  else st2

/-- The single uniform transform factor applied to the rendered content
(line 1792): `currentScale / renderScale`. -/
def transformScale (st : PageState) : ℚ := st.currentScale / st.renderScale

/-- Run a sequence of page events. -/
def runEvents (es : List PageEvent) (st : PageState) : PageState :=
  es.foldl (fun s e => pageStep e s) st

/-- The tool selector of the viewer:
`'cursor' | 'text' | 'ink' | 'eraser'`. -/
inductive Tool
  | cursor
  | text
  | ink
  | eraser
deriving DecidableEq, Repr

/-- The ink annotation committed by `handlePointerUp` (lines 1769-1778);
the generated temp identifier is abstracted as `tempId`. -/
def mkInkAnnotation (tempId : String) (pageNumber : ℤ)
    (points : List (ℚ × ℚ)) (inkColor : String)
    (inkStrokeWidth inkOpacity : ℚ) : Annotation :=
  { id := some tempId, page := pageNumber, bbox := ⟨0, 0, 0, 0⟩,
    type := AnnKind.ink, points := points, color := some inkColor,
    opacity := some inkOpacity, strokeWidth := some inkStrokeWidth,
    text := none }

/-- `handlePointerUp` (lines 1763-1781): returns the committed annotation
(if any), the new captured-point list, and the new drawing flag.  An early
return happens unless a drawing is in progress with the ink tool; a commit
happens only when more than one point was captured. -/
def handlePointerUp (isDrawing : Bool) (activeTool : Tool) (tempId : String)
    (pageNumber : ℤ) (currentPoints : List (ℚ × ℚ)) (inkColor : String)
    (inkStrokeWidth inkOpacity : ℚ) :
    Option Annotation × List (ℚ × ℚ) × Bool :=
  if isDrawing = false ∨ activeTool ≠ Tool.ink then
    (none, currentPoints, isDrawing)
  else if 1 < currentPoints.length then
    (some ( mkInkAnnotation tempId pageNumber currentPoints inkColor
        inkStrokeWidth inkOpacity), [], false)
  else
    (none, [], false)

/-- Effect of `addInkAnnotation` (line 2456) on the in-memory store: append
the committed record, if any. -/
def commitInk (anns : List Annotation) (committed : Option Annotation) :
    List Annotation :=
  anns ++ committed.toList

/-- JavaScript `x || dflt` on an optional number: `undefined` and `0` are
falsy. -/
def jsOrQ (v : Option ℚ) (dflt : ℚ) : ℚ :=
  match v with
  | none => dflt
  | some x => if x = 0 then dflt else x

/-- JavaScript `x || dflt` on an optional string: `undefined` and `""` are
falsy. -/
def jsOrStr (v : Option String) (dflt : String) : String :=
  match v with
  | none => dflt
  | some x => if x = "" then dflt else x

/-- A vector drawing operation emitted by the export flattener
(`handleSaveToDrive`, PdfViewer.tsx lines 2500-2550): a filled rectangle
(`page.drawRectangle`) or a line segment (`page.drawLine`), with
bottom-left-origin coordinates.  Colors are carried as their source hex
strings; the `hexToRgb` conversion of line 2492 does not affect geometry. -/
inductive DrawOp
  | rect (x y w h : ℚ) (color : String) (opacity : ℚ)
  | line (x1 y1 x2 y2 thickness : ℚ) (opacity : ℚ)
deriving DecidableEq, Repr

/-- The line segments drawn for an ink stroke (lines 2538-2549): one
segment per consecutive pair of points, each endpoint flipped to
`pageHeight - y`. -/
def inkSegments (pageHeight thickness opacity : ℚ) :
    List (ℚ × ℚ) → List DrawOp
  | p1 :: p2 :: rest =>
      DrawOp.line p1.1 (pageHeight - p1.2) p2.1 (pageHeight - p2.2)
          thickness opacity ::
        inkSegments pageHeight thickness opacity (p2 :: rest)
  | _ => []

/-- The drawing operations the flattener emits for one annotation on a page
of the given native height (lines 2505-2550).  The stored unit-scale
geometry is used as-is: no view-scale or render-scale factor appears
anywhere (the function does not even take a scale argument), and the
vertical flip is `pageHeight - y - h` for highlight rectangles and
`pageHeight - y` for ink points. -/
def flattenAnnotation (pageHeight : ℚ) (ann : Annotation) : List DrawOp :=
  match ann.type with
  | AnnKind.highlight =>
      [DrawOp.rect ann.bbox.x (pageHeight - ann.bbox.y - ann.bbox.h)
        ann.bbox.w ann.bbox.h (jsOrStr ann.color "#facc15")
        (ann.opacity.getD (2/5))]
  | AnnKind.note =>
      if strTruthy ann.text then
        [DrawOp.rect ann.bbox.x (pageHeight - ann.bbox.y - 20) 150 50
          (jsOrStr ann.color "#fef9c3") 1]
      else []
  | AnnKind.ink =>
      if ann.points.length > 0 then
        inkSegments pageHeight (jsOrQ ann.strokeWidth 3)
          (ann.opacity.getD (1/2)) ann.points
      else []

/-- The flattening loop over the whole store (lines 2500-2551): every
annotation whose page number exceeds the page count is skipped
(`if (ann.page > pages.length) continue`); otherwise the page at index
`ann.page - 1` is resolved (its native height given by `pageHeights`) and
the annotation's operations are drawn onto it. -/
def flattenExport (numPages : ℕ) (pageHeights : ℤ → ℚ)
    (anns : List Annotation) : List (ℤ × DrawOp) :=
  anns.flatMap (fun ann =>
    if ann.page > (numPages : ℤ) then []
    else
      ( flattenAnnotation (pageHeights (ann.page - 1)) ann).map
        (fun op => (ann.page - 1, op)))

/-- A concrete highlight whose unit rectangle is `(x=10, y=20, w=100,
h=15)`. -/
def hl800 : Annotation :=
  { id := some "hl-800", page := 1, bbox := ⟨10, 20, 100, 15⟩,
    text := some "spec example", type := AnnKind.highlight,
    color := some "#facc15", opacity := some (2/5) }

/-- An annotation whose page number (99) exceeds any page count used in the
witnesses below. -/
def hlFar : Annotation :=
  { id := some "hl-far", page := 99, bbox := ⟨1, 2, 3, 4⟩,
    text := some "far away", type := AnnKind.highlight }

/-- JavaScript truthiness-plus-trim test of the digest filter (line 2082):
`a.text && a.text.trim().length > 0`. -/
def textHasContent (t : Option String) : Bool :=
  match t with
  | none => false
  | some s => decide (0 < s.trim.length)

/-- The ordering used by the digest's sort comparator (lines 2083-2088):
ascending page first, then ascending vertical position `bbox[1]`. -/
def digestLE (a b : Annotation) : Prop :=
  a.page < b.page ∨ (a.page = b.page ∧ a.bbox.y ≤ b.bbox.y)

instance : DecidableRel digestLE := fun a b => by
  unfold digestLE; exact inferInstance

instance : IsTotal Annotation digestLE :=
  ⟨fun a b => by
    unfold digestLE
    rcases lt_trichotomy a.page b.page with h | h | h
    · exact Or.inl (Or.inl h)
    · rcases le_total a.bbox.y b.bbox.y with hy | hy
      · exact Or.inl (Or.inr ⟨h, hy⟩)
      · exact Or.inr (Or.inr ⟨h.symm, hy⟩)
    · exact Or.inr (Or.inl h)⟩

instance : IsTrans Annotation digestLE :=
  ⟨fun a b c hab hbc => by
    unfold digestLE at hab hbc ⊢
    rcases hab with h1 | ⟨h1, hy1⟩ <;> rcases hbc with h2 | ⟨h2, hy2⟩
    · exact Or.inl (h1.trans h2)
    · exact Or.inl (by rw [← h2]; exact h1)
    · exact Or.inl (by rw [h1]; exact h2)
    · exact Or.inr ⟨h1.trans h2, hy1.trans hy2⟩⟩

/-- The digest's filter step (lines 2081-2082): highlights and notes whose
text payload has non-whitespace content. -/
def fichamentoFilter (anns : List Annotation) : List Annotation :=
  anns.filter (fun a =>
    (decide (a.type = AnnKind.highlight) || decide (a.type = AnnKind.note))
      && textHasContent a.text)

/-- The digest's sort step (lines 2083-2088).  The browser's stable
`Array.prototype.sort` with the page-then-y comparator is modelled by the
stable `insertionSort` under `digestLE`. -/
def fichamentoSorted (anns : List Annotation) : List Annotation :=
  List.insertionSort digestLE (fichamentoFilter anns)

/-- The digest's deduplication loop (lines 2092-2104): a `Set` of seen
`page|text` keys, keeping only the first record for each key.  The string
key `` `${ann.page}|${ann.text}` `` is modelled by the pair
`(page, text)` — the page's decimal digits contain no `|`, so the string
key and the pair identify the same records. -/
def dedupGo (seen : List (ℤ × Option String)) :
    List Annotation → List Annotation
  | [] => []
  | a :: rest =>
      if (a.page, a.text) ∈ seen then dedupGo seen rest
      else a :: dedupGo ((a.page, a.text) :: seen) rest

/-- The deduplicated, filtered, sorted annotation list underlying the
digest (`uniqueAnnotations`, line 2094). -/
def fichamentoList (anns : List Annotation) : List Annotation :=
  dedupGo [] (fichamentoSorted anns)

/-- The final digest text (lines 2090 and 2106-2108): empty when no text
annotation survives the filter, otherwise one `Página N\ntext` block per
unique entry joined by blank lines. -/
def fichamentoText (pageOffset : ℤ) (anns : List Annotation) : String :=
  if fichamentoFilter anns = [] then ""
  else
    String.intercalate "\n\n" ((fichamentoList anns).map (fun a =>
      "Página " ++ toString (a.page + pageOffset - 1) ++ "\n" ++
        a.text.getD ""))

/-- A persistence failure from the external collaborator
(`saveAnnotation`), as seen by `saveAnnotationsList`. -/
abbrev PersistResult := Except String Unit

/-- The first failure in the per-record persistence loop of
`saveAnnotationsList` (lines 2463-2465): a rejected `await` aborts the loop
and is caught once. -/
def firstError : List PersistResult → Option String
  | [] => none
  | Except.ok _ :: rest => firstError rest
  | Except.error e :: _ => some e

/-- Document-level viewer state touched by annotation creation: the
in-memory store (`annotations`), the saving flag and the console error
log. -/
structure ViewerState where
  annotations : List Annotation
  isSaving : Bool
  errorLog : List String
deriving DecidableEq, Repr

/-- `saveAnnotationsList` (lines 2460-2471): persists each record,
logging the first failure (`console.error`) and clearing the saving flag in
`finally`; it never touches the `annotations` state. -/
def saveAnnotationsList (results : List PersistResult) (st : ViewerState) :
    ViewerState :=
  { st with
    isSaving := false,
    errorLog :=
      match firstError results with
      | some e => st.errorLog ++ ["Failed to save annotation: " ++ e]
      | none => st.errorLog }

/-- The selection state consumed by `createHighlight` (page, selected text
and the normalized per-line rectangles). -/
structure SelectionState where
  page : ℤ
  text : String
  relativeRects : List BBox
deriving DecidableEq, Repr

/-- The highlight records built by `createHighlight` (lines 2424-2439): one
per captured rectangle, all sharing the selection's text and the current
color and opacity; generated temp identifiers are abstracted by `idGen`. -/
def highlightsFromSelection (idGen : ℕ → String) (sel : SelectionState)
    (highlightColor : String) (highlightOpacity : ℚ) : List Annotation :=
  sel.relativeRects.mapIdx (fun i r =>
    { id := some (idGen i), page := sel.page, bbox := r,
      type := AnnKind.highlight, text := some sel.text,
      color := some highlightColor, opacity := some highlightOpacity })

/-- `createHighlight` (lines 2421-2446): appends the new records to the
in-memory store first, then runs asynchronous persistence. -/
def createHighlight (idGen : ℕ → String) (sel : Option SelectionState)
    (highlightColor : String) (highlightOpacity : ℚ)
    (results : List PersistResult) (st : ViewerState) : ViewerState :=
  match sel with
  | none => st
  | some s =>
      saveAnnotationsList results
        { st with annotations := st.annotations ++
            (highlightsFromSelection idGen s highlightColor
              highlightOpacity) }

/-- `handleAddNote` (lines 2448-2452): append the note, then persist. -/
def handleAddNote (ann : Annotation) (results : List PersistResult)
    (st : ViewerState) : ViewerState :=
  saveAnnotationsList results
    { st with annotations := st.annotations ++ [ann] }

/-- `addInkAnnotation` (lines 2454-2458): append the stroke, then
persist. -/
def addInkAnnotation (ann : Annotation) (results : List PersistResult)
    (st : ViewerState) : ViewerState :=
  saveAnnotationsList results
    { st with annotations := st.annotations ++ [ann] }

/-- A failure raised inside `handleSaveToDrive`; `unauthorized` marks the
session-expiry class of errors (`"Unauthorized"` / HTTP 401) that is routed
to the auth callback instead of the alert dialog (lines 2562-2571). -/
structure ExportError where
  msg : String
  unauthorized : Bool
deriving DecidableEq, Repr

/-- Externally visible actions of `handleSaveToDrive`: the upload request,
the delete-original request, the auth-failure callback, the error alert and
the success alert. -/
inductive ExportAction
  | uploadReq
  | deleteReq
  | authErrorCb
  | alertError (msg : String)
  | alertSuccess
deriving DecidableEq, Repr

/-- How the catch block of `handleSaveToDrive` surfaces a failure. -/
def surfaceError (e : ExportError) : ExportAction :=
  if e.unauthorized then ExportAction.authErrorCb
  else ExportAction.alertError e.msg

/-- The action trace of `handleSaveToDrive` (lines 2487-2574): load the
original bytes and draw every annotation (`loadDraw`), then upload the
flattened document, then — only after the upload resolved successfully —
request deletion of the original file; any rejection jumps to the single
catch block. -/
def runExport (loadDraw upload del : Except ExportError Unit) :
    List ExportAction :=
  match loadDraw with
  | Except.error e => [surfaceError e]
  | Except.ok _ =>
    match upload with
    | Except.error e => [ExportAction.uploadReq, surfaceError e]
    | Except.ok _ =>
      match del with
      | Except.error e =>
          [ExportAction.uploadReq, ExportAction.deleteReq, surfaceError e]
      | Except.ok _ =>
          [ExportAction.uploadReq, ExportAction.deleteReq,
            ExportAction.alertSuccess]

lemma surfaceError_ne_deleteReq (e : ExportError) :
    surfaceError e ≠ ExportAction.deleteReq := by
  unfold surfaceError; split <;> simp

lemma length_filter_ne_add_countP (tid : String) (l : List Annotation) :
    (l.filter (fun a => decide (a.id ≠ some tid))).length
      + l.countP (fun a => decide (a.id = some tid)) = l.length := by
  induction l with
  | nil => rfl
  | cons a l ih =>
    by_cases h : a.id = some tid <;>
      simp [List.filter_cons, List.countP_cons, h, ← ih] <;> omega

section Theorems

/-- C2 counterexample: `noteA` is a note with a (truthy) text payload, and
`noteB` is a second record on the same page sharing the same kind and the
exact same text; yet deleting `noteA` leaves `noteB` in the store, so the
delete operation does not remove every same-kind/same-text record for every
annotation with a text payload. -/
theorem delete_note_with_text_leaves_duplicate :
    noteB ∈ handleDeleteAnnotation noteA [noteA, noteB] ∧
    noteB.page = noteA.page ∧ noteB.text = noteA.text ∧
    noteB.type = noteA.type ∧ strTruthy noteA.text = true := by
  decide

/-- C2 (amended): for every highlight with a truthy text payload passed to
delete, the operation removes, in one call, every record on the same page
sharing the same kind and the exact same text (zero residual fragments), and
keeps every record that does not match. -/
theorem delete_highlight_removes_all_fragments (target : Annotation)
    (anns : List Annotation) (ht : target.type = AnnKind.highlight)
    (htext : strTruthy target.text = true) :
    (∀ a ∈ handleDeleteAnnotation target anns,
        ¬(a.page = target.page ∧ a.text = target.text ∧
          a.type = target.type)) ∧
    (∀ a ∈ anns,
        ¬(a.page = target.page ∧ a.text = target.text ∧
          a.type = target.type) →
        a ∈ handleDeleteAnnotation target anns) := by
  have hcond : ¬(target.type = AnnKind.ink ∨ target.type = AnnKind.note ∨
      strTruthy target.text = false) := by
    simp [ht, htext]
  unfold handleDeleteAnnotation
  rw [if_neg hcond]
  constructor
  · intro a ha
    exact of_decide_eq_true (List.mem_filter.mp ha).2
  · intro a ha hne
    exact List.mem_filter.mpr ⟨ha, decide_eq_true hne⟩

/-- Witness for `delete_highlight_removes_all_fragments` at the concrete
two-fragment highlight `hlFrag1`/`hlFrag2`. -/
theorem delete_highlight_removes_all_fragments_witness :
    hlFrag1.type = AnnKind.highlight ∧ strTruthy hlFrag1.text = true ∧
    (∀ a ∈ handleDeleteAnnotation hlFrag1 [hlFrag1, hlFrag2],
        ¬(a.page = hlFrag1.page ∧ a.text = hlFrag1.text ∧
          a.type = hlFrag1.type)) :=
  ⟨rfl, by decide,
    (delete_highlight_removes_all_fragments hlFrag1 [hlFrag1, hlFrag2]
      rfl (by decide)).1⟩

/-- C9: deleting an ink annotation — or any annotation without a (truthy)
text payload, which the source routes through the same delete-by-id branch —
with a (truthy) identifier removes exactly the records whose identifier
matches (one record when the identifier is unique in the store), and leaves
every other record — highlights and notes on the same page included — in
place, in their original order. -/
theorem delete_ink_by_identifier_only (target : Annotation) (tid : String)
    (anns : List Annotation)
    (hk : target.type = AnnKind.ink ∨ strTruthy target.text = false)
    (hid : target.id = some tid) (htid : tid ≠ "") :
    handleDeleteAnnotation target anns =
      anns.filter (fun a => decide (a.id ≠ some tid)) ∧
    (∀ a ∈ anns, a.id ≠ some tid →
        a ∈ handleDeleteAnnotation target anns) ∧
    (anns.countP (fun a => decide (a.id = some tid)) = 1 →
      ( handleDeleteAnnotation target anns).length + 1 = anns.length) := by
  have hcond : target.type = AnnKind.ink ∨ target.type = AnnKind.note ∨
      strTruthy target.text = false := by
    rcases hk with h | h
    · exact Or.inl h
    · exact Or.inr (Or.inr h)
  have htr : strTruthy target.id = true := by
    rw [hid]; simpa [strTruthy] using htid
  have heq : handleDeleteAnnotation target anns =
      anns.filter (fun a => decide (a.id ≠ some tid)) := by
    unfold handleDeleteAnnotation
    rw [if_pos hcond, if_pos htr, hid]
  refine ⟨heq, ?_, ?_⟩
  · intro a ha hne
    rw [heq]
    exact List.mem_filter.mpr ⟨ha, by simpa using hne⟩
  · intro hcount
    rw [heq]
    have := length_filter_ne_add_countP tid anns
    omega

/-- Witness for `delete_ink_by_identifier_only`: erasing the concrete
5-point ink stroke leaves the two unrelated highlight fragments untouched. -/
theorem delete_ink_by_identifier_only_witness :
    (inkStroke.type = AnnKind.ink ∨ strTruthy inkStroke.text = false) ∧
    inkStroke.id = some "ink-1" ∧
    ("ink-1" : String) ≠ "" ∧
    handleDeleteAnnotation inkStroke [hlFrag1, inkStroke, hlFrag2] =
      [hlFrag1, inkStroke, hlFrag2].filter
        (fun a => decide (a.id ≠ some "ink-1")) :=
  ⟨Or.inl rfl, rfl, by decide,
    (delete_ink_by_identifier_only inkStroke "ink-1"
      [hlFrag1, inkStroke, hlFrag2] (Or.inl rfl) rfl (by decide)).1⟩

/-- C1: an annotation created at view scale `s1` (stored geometry obtained
by subtracting the page's screen origin and dividing by `s1`) is placed on
screen, when later rendered at any view scale `s2`, at exactly its stored
unit-scale geometry multiplied by `s2`: the overlay's `bbox * renderScale`
inside the `s2 / renderScale`-scaled container cancels the render scale. -/
theorem zoom_invariance_round_trip (r : ScreenRect)
    (pageLeft pageTop s1 s2 renderScale : ℚ) (hR : renderScale ≠ 0) :
    overlayScreenRect (normalizeSelectionRect r pageLeft pageTop s1)
        renderScale s2 =
      { left := (normalizeSelectionRect r pageLeft pageTop s1).x * s2,
        top := (normalizeSelectionRect r pageLeft pageTop s1).y * s2,
        width := (normalizeSelectionRect r pageLeft pageTop s1).w * s2,
        height := (normalizeSelectionRect r pageLeft pageTop s1).h * s2 } := by
  have hc : ∀ b : ℚ, b * renderScale * (s2 / renderScale) = b * s2 := by
    intro b
    rw [mul_assoc, ← mul_div_assoc, mul_div_cancel_left₀ _ hR]
  simp only [overlayScreenRect, normalizeSelectionRect]
  congr 1 <;> exact hc _

/-- Witness for `zoom_invariance_round_trip`: a selection rect captured at
view scale 3/2 re-renders at view scale 3 (render scale 2) at exactly the
stored geometry times 3. -/
theorem zoom_invariance_round_trip_witness :
    (2 : ℚ) ≠ 0 ∧
    overlayScreenRect (normalizeSelectionRect ⟨100, 200, 50, 10⟩ 20 30 (3/2))
        2 3 =
      { left := (normalizeSelectionRect ⟨100, 200, 50, 10⟩ 20 30 (3/2)).x * 3,
        top := (normalizeSelectionRect ⟨100, 200, 50, 10⟩ 20 30 (3/2)).y * 3,
        width :=
          (normalizeSelectionRect ⟨100, 200, 50, 10⟩ 20 30 (3/2)).w * 3,
        height :=
          (normalizeSelectionRect ⟨100, 200, 50, 10⟩ 20 30 (3/2)).h * 3 } :=
  ⟨by norm_num,
    zoom_invariance_round_trip ⟨100, 200, 50, 10⟩ 20 30 (3/2) 3 2
      (by norm_num)⟩

/-- C3: any sequence of view-scale changes on a page leaves the raster
invocation count, the fetched page proxy, the render scale and the page
dimensions untouched — the final state differs from the initial one only in
`currentScale`, and the content transform is the single uniform factor
`currentScale / renderScale`. -/
theorem zoom_is_transform_only (st : PageState) (ss : List ℚ) :
    runEvents (ss.map PageEvent.setScale) st =
      { st with currentScale := ss.getLastD st.currentScale } ∧
    (runEvents (ss.map PageEvent.setScale) st).rasterCount =
      st.rasterCount ∧
    transformScale (runEvents (ss.map PageEvent.setScale) st) =
      ss.getLastD st.currentScale / st.renderScale := by
  have key : ∀ (l : List ℚ) (s : PageState),
      runEvents (l.map PageEvent.setScale) s =
        { s with currentScale := l.getLastD s.currentScale } := by
    intro l
    induction l with
    | nil => intro s; rfl
    | cons a l ih =>
      intro s
      have hstep : pageStep (PageEvent.setScale a) s =
          { s with currentScale := a } := by
        simp [pageStep, applyEvent, renderEffectDeps]
      calc runEvents ((a :: l).map PageEvent.setScale) s
          = runEvents (l.map PageEvent.setScale)
              (pageStep (PageEvent.setScale a) s) := rfl
        _ = { s with currentScale := (a :: l).getLastD s.currentScale } := by
              rw [hstep, ih]
              rw [List.getLastD_cons]
  refine ⟨key ss st, ?_, ?_⟩
  · rw [key ss st]
  · rw [key ss st]
    rfl

/-- C8: with a drawing in progress under the ink tool, releasing the
pointer commits exactly one ink annotation carrying the captured points if
and only if at least two points were captured; with fewer than two points
nothing is committed and the store is unchanged. -/
theorem ink_commit_iff_two_points (isDrawing : Bool) (tempId : String)
    (pageNumber : ℤ) (pts : List (ℚ × ℚ)) (c : String) (w o : ℚ)
    (anns : List Annotation) (hd : isDrawing = true) :
    ((handlePointerUp isDrawing Tool.ink tempId pageNumber pts c w
        o).1.isSome ↔ 2 ≤ pts.length) ∧
    (2 ≤ pts.length →
      (handlePointerUp isDrawing Tool.ink tempId pageNumber pts c w o).1 =
        some ( mkInkAnnotation tempId pageNumber pts c w o) ∧
      commitInk anns
          (handlePointerUp isDrawing Tool.ink tempId pageNumber pts c w
            o).1 =
        anns ++ [ mkInkAnnotation tempId pageNumber pts c w o]) ∧
    (pts.length < 2 →
      (handlePointerUp isDrawing Tool.ink tempId pageNumber pts c w o).1 =
        none ∧
      commitInk anns
          (handlePointerUp isDrawing Tool.ink tempId pageNumber pts c w
            o).1 =
        anns) := by
  subst hd
  by_cases h : 1 < pts.length
  · simp [handlePointerUp, commitInk, h]
    omega
  · simp [handlePointerUp, commitInk, h]
    omega

/-- Witness for `ink_commit_iff_two_points`: the five captured points of
`inkStroke` commit exactly one ink annotation. -/
theorem ink_commit_iff_two_points_witness :
    (true = true) ∧
    ((handlePointerUp true Tool.ink "ink-1" 3
        [(1, 1), (2, 3), (4, 5), (6, 6), (8, 9)] "#22c55e" 20
        (1/2)).1.isSome ↔
      2 ≤ ([(1, 1), (2, 3), (4, 5), (6, 6), (8, 9)] :
        List (ℚ × ℚ)).length) :=
  ⟨rfl,
    (ink_commit_iff_two_points true "ink-1" 3
      [(1, 1), (2, 3), (4, 5), (6, 6), (8, 9)] "#22c55e" 20 (1/2) []
      rfl).1⟩

/-- C4: the flattener converts top-left-origin unit geometry to the
bottom-left-origin native system with `pdf_y = pageHeight - y - h` for
highlight rectangles and `pdf_y = pageHeight - y` for every ink stroke
point, with no view-scale or render-scale correction (the flattener takes no
scale argument at all); in particular the unit rectangle (10, 20, 100, 15)
on a page of height 800 is drawn at y = 765. -/
theorem export_vertical_flip :
    (∀ (pageHeight : ℚ) (ann : Annotation),
        ann.type = AnnKind.highlight →
        flattenAnnotation pageHeight ann =
          [DrawOp.rect ann.bbox.x (pageHeight - ann.bbox.y - ann.bbox.h)
            ann.bbox.w ann.bbox.h (jsOrStr ann.color "#facc15")
            (ann.opacity.getD (2/5))]) ∧
    (∀ (pageHeight t o : ℚ) (ps : List (ℚ × ℚ)),
        inkSegments pageHeight t o ps =
          (ps.zip ps.tail).map (fun pq =>
            DrawOp.line pq.1.1 (pageHeight - pq.1.2) pq.2.1
              (pageHeight - pq.2.2) t o)) ∧
    flattenAnnotation 800 hl800 =
      [DrawOp.rect 10 765 100 15 "#facc15" (2/5)] := by
  refine ⟨?_, ?_, by norm_num [ flattenAnnotation, hl800, jsOrStr]⟩
  · intro pageHeight ann hh
    simp [ flattenAnnotation, hh]
  · intro pageHeight t o ps
    induction ps with
    | nil => rfl
    | cons p ps ih =>
      cases ps with
      | nil => rfl
      | cons q rest =>
        simp only [inkSegments, ih, List.tail_cons, List.zip_cons_cons,
          List.map_cons]

/-- Witness for `export_vertical_flip`: the highlight branch applied to the
concrete annotation `hl800` at page height 800. -/
theorem export_vertical_flip_witness :
    hl800.type = AnnKind.highlight ∧
    flattenAnnotation 800 hl800 =
      [DrawOp.rect hl800.bbox.x (800 - hl800.bbox.y - hl800.bbox.h)
        hl800.bbox.w hl800.bbox.h (jsOrStr hl800.color "#facc15")
        (hl800.opacity.getD (2/5))] :=
  ⟨rfl, export_vertical_flip.1 800 hl800 rfl⟩

/-- C10: an annotation whose page number exceeds the page count contributes
no drawing operation (it is skipped and the flattening of the rest still
completes), and — provided every stored page number is at least 1, as the
creation sites guarantee — every emitted operation targets a valid 0-based
page index below the page count. -/
theorem export_skips_out_of_range_pages (numPages : ℕ)
    (pageHeights : ℤ → ℚ) (anns : List Annotation)
    (hpos : ∀ ann ∈ anns, 1 ≤ ann.page) :
    (∀ ann : Annotation, ann.page > (numPages : ℤ) →
        flattenExport numPages pageHeights [ann] = []) ∧
    (∀ (i : ℤ) (op : DrawOp),
        (i, op) ∈ flattenExport numPages pageHeights anns →
        0 ≤ i ∧ i < (numPages : ℤ)) := by
  constructor
  · intro ann h
    simp [flattenExport, h]
  · intro i op hmem
    simp only [flattenExport, List.mem_flatMap] at hmem
    obtain ⟨ann, hann, hop⟩ := hmem
    by_cases hp : ann.page > (numPages : ℤ)
    · simp [hp] at hop
    · rw [if_neg hp] at hop
      obtain ⟨op2, _, heq⟩ := List.mem_map.mp hop
      have hi : ann.page - 1 = i := congrArg Prod.fst heq
      have := hpos ann hann
      omega

/-- Witness for `export_skips_out_of_range_pages`: with 5 pages, the
page-99 annotation `hlFar` produces no drawing operation. -/
theorem export_skips_out_of_range_pages_witness :
    (∀ ann ∈ [hl800], 1 ≤ ann.page) ∧
    flattenExport 5 (fun _ => 800) [hlFar] = [] :=
  ⟨by decide,
    (export_skips_out_of_range_pages 5 (fun _ => 800) [hl800]
      (by decide)).1 hlFar (by decide)⟩

lemma dedupGo_sublist (seen : List (ℤ × Option String))
    (l : List Annotation) : List.Sublist (dedupGo seen l) l := by
  induction l generalizing seen with
  | nil => simp [dedupGo]
  | cons a rest ih =>
    by_cases h : (a.page, a.text) ∈ seen
    · simp only [dedupGo, if_pos h]
      exact (ih seen).trans (List.sublist_cons_self a rest)
    · simp only [dedupGo, if_neg h]
      exact (ih ((a.page, a.text) :: seen)).cons₂ a

lemma dedupGo_keys (seen : List (ℤ × Option String))
    (l : List Annotation) :
    (∀ a ∈ dedupGo seen l, (a.page, a.text) ∉ seen) ∧
    (dedupGo seen l).Pairwise
      (fun a b => (a.page, a.text) ≠ (b.page, b.text)) := by
  induction l generalizing seen with
  | nil => simp [dedupGo]
  | cons x rest ih =>
    by_cases h : (x.page, x.text) ∈ seen
    · simpa only [dedupGo, if_pos h] using ih seen
    · simp only [dedupGo, if_neg h]
      refine ⟨?_, ?_⟩
      · intro a ha
        rcases List.mem_cons.mp ha with rfl | ha2
        · exact h
        · have := (ih ((x.page, x.text) :: seen)).1 a ha2
          exact fun hmem => this (List.mem_cons_of_mem _ hmem)
      · refine List.Pairwise.cons ?_ (ih ((x.page, x.text) :: seen)).2
        intro b hb
        have := (ih ((x.page, x.text) :: seen)).1 b hb
        intro he
        exact this (he ▸ List.mem_cons_self _ _)

/-- C5: the digest's entry list is ordered by ascending page number, within
a page by ascending vertical position, and contains no two entries sharing
the same page, text and kind — in particular the multiple same-text
fragment records of a wrapped selection contribute a single entry. -/
theorem digest_ordered_and_deduplicated (anns : List Annotation) :
    (fichamentoList anns).Pairwise (fun a b =>
        a.page < b.page ∨ (a.page = b.page ∧ a.bbox.y ≤ b.bbox.y)) ∧
    (fichamentoList anns).Pairwise (fun a b =>
        ¬(a.page = b.page ∧ a.text = b.text ∧ a.type = b.type)) := by
  constructor
  · have hs : (fichamentoSorted anns).Pairwise digestLE :=
      List.sorted_insertionSort digestLE (fichamentoFilter anns)
    exact List.Pairwise.sublist (dedupGo_sublist [] (fichamentoSorted anns))
      hs
  · have h := (dedupGo_keys [] (fichamentoSorted anns)).2
    refine h.imp ?_
    intro a b hne hc
    exact hne (by rw [hc.1, hc.2.1])

/-- C6: the delete-original request is issued only on traces where both the
load/draw phase and the upload succeeded, and then strictly after the upload
request; when loading/drawing or uploading fails, the delete request never
appears in the trace and the failure is surfaced (auth callback or error
alert). -/
theorem export_upload_before_delete :
    (∀ loadDraw upload del : Except ExportError Unit,
        ExportAction.deleteReq ∈ runExport loadDraw upload del →
        loadDraw = Except.ok () ∧ upload = Except.ok () ∧
        ∃ rest, runExport loadDraw upload del =
          ExportAction.uploadReq :: ExportAction.deleteReq :: rest) ∧
    (∀ (e : ExportError) (upload del : Except ExportError Unit),
        ExportAction.deleteReq ∉ runExport (Except.error e) upload del ∧
        surfaceError e ∈ runExport (Except.error e) upload del) ∧
    (∀ (e : ExportError) (del : Except ExportError Unit),
        ExportAction.deleteReq ∉
          runExport (Except.ok ()) (Except.error e) del ∧
        surfaceError e ∈ runExport (Except.ok ()) (Except.error e) del) := by
  refine ⟨?_, ?_, ?_⟩
  · intro loadDraw upload del h
    match loadDraw, upload, del with
    | Except.error e, _, _ =>
        exact ((surfaceError_ne_deleteReq e)
          (List.mem_singleton.mp h).symm).elim
    | Except.ok (), Except.error e, _ =>
        rcases List.mem_cons.mp h with h1 | h1
        · exact ExportAction.noConfusion h1
        · exact ((surfaceError_ne_deleteReq e)
            (List.mem_singleton.mp h1).symm).elim
    | Except.ok (), Except.ok (), Except.error e =>
        exact ⟨rfl, rfl, [surfaceError e], rfl⟩
    | Except.ok (), Except.ok (), Except.ok () =>
        exact ⟨rfl, rfl, [ExportAction.alertSuccess], rfl⟩
  · intro e upload del
    constructor
    · intro h
      exact surfaceError_ne_deleteReq e (List.mem_singleton.mp h).symm
    · exact List.mem_singleton.mpr rfl
  · intro e del
    constructor
    · intro h
      rcases List.mem_cons.mp h with h1 | h1
      · exact ExportAction.noConfusion h1
      · exact surfaceError_ne_deleteReq e (List.mem_singleton.mp h1).symm
    · exact List.mem_cons_of_mem _ (List.mem_singleton.mpr rfl)

/-- Witness for `export_upload_before_delete`: on the all-success trace the
delete request appears and follows the upload request. -/
theorem export_upload_before_delete_witness :
    ExportAction.deleteReq ∈
      runExport (Except.ok ()) (Except.ok ()) (Except.ok ()) ∧
    ∃ rest, runExport (Except.ok ()) (Except.ok ()) (Except.ok ()) =
      ExportAction.uploadReq :: ExportAction.deleteReq :: rest :=
  ⟨by decide,
    (export_upload_before_delete.1 (Except.ok ()) (Except.ok ())
      (Except.ok ()) (by decide)).2.2⟩

/-- C7: creating a highlight, note or ink annotation appends the record(s)
to the in-memory store before persistence runs, and the persistence step —
whatever its outcome, including failure — never changes the store; a failure
is appended to the error log. -/
theorem persistence_failure_retains_records (idGen : ℕ → String)
    (s : SelectionState) (highlightColor : String) (highlightOpacity : ℚ)
    (ann : Annotation) (results : List PersistResult) (st : ViewerState) :
    (createHighlight idGen (some s) highlightColor highlightOpacity results
        st).annotations =
      st.annotations ++
        highlightsFromSelection idGen s highlightColor highlightOpacity ∧
    (handleAddNote ann results st).annotations = st.annotations ++ [ann] ∧
    ( addInkAnnotation ann results st).annotations =
      st.annotations ++ [ann] ∧
    (saveAnnotationsList results st).annotations = st.annotations ∧
    (∀ e, firstError results = some e →
        (saveAnnotationsList results st).errorLog =
          st.errorLog ++ ["Failed to save annotation: " ++ e]) := by
  refine ⟨rfl, rfl, rfl, rfl, ?_⟩
  intro e he
  simp [saveAnnotationsList, he]

/-- Witness for `persistence_failure_retains_records`: a failing
persistence call leaves the concrete one-stroke store unchanged and logs
the failure. -/
theorem persistence_failure_retains_records_witness :
    firstError [Except.error "network down"] = some "network down" ∧
    (saveAnnotationsList [Except.error "network down"]
        ⟨[inkStroke], true, []⟩).errorLog =
      ([] : List String) ++ ["Failed to save annotation: " ++
        "network down"] :=
  ⟨rfl,
    (persistence_failure_retains_records (fun _ => "t")
      ⟨3, "w", []⟩ "#facc15" (2/5) inkStroke
      [Except.error "network down"]
      ⟨[inkStroke], true, []⟩).2.2.2.2 "network down" rfl⟩

end Theorems

end PdfReaderApp
